import Mathlib

/-!
Verification development for the news Twitter bot (src/main.py, src/twitter_bot.py).

The Python sources are shallowly embedded: pure string manipulation is
modelled character-by-character on `List Char`; `datetime` values are
modelled as integers (calendar dates as day ordinals `ℤ`); scores are
rationals `ℚ`; the per-article random jitter `random.uniform(0, 0.5)` is
an explicit parameter (a function from draw index to `ℚ`); external
library calls (`datetime.strptime`, the Gemini model, Selenium) are
explicit parameters or outcome records.
-/

namespace TwitterBot

/-! ### Python string primitives, modelled on `List Char` -/

/-- Python `str.strip()` (ASCII whitespace model): drop whitespace from
both ends. -/
def pyStrip (s : String) : String :=
  String.mk (((s.data.dropWhile Char.isWhitespace).reverse.dropWhile
    Char.isWhitespace).reverse)

/-- Python `str.lower()` (ASCII model). -/
def pyLower (s : String) : String :=
  String.mk (s.data.map Char.toLower)

/-- Python slicing `s[:n]`. -/
def pyTake (n : Nat) (s : String) : String :=
  String.mk (s.data.take n)

/-- Python `str.capitalize()`: first character uppercased, the rest
lowercased (ASCII model). -/
def pyCapitalize (s : String) : String :=
  match s.data with
  | [] => ""
  | c :: cs => String.mk (c.toUpper :: cs.map Char.toLower)

/-- Python substring containment `needle in hay` on character lists:
some suffix of `hay` starts with `needle`. -/
def containsSub (needle hay : List Char) : Bool :=
  hay.tails.any (fun t => needle.isPrefixOf t)

/-- One fuel-measured step list for Python `str.replace(pat, rep)`:
leftmost non-overlapping matches, replaced text not rescanned.  The fuel
is an upper bound on the number of characters consumed; `pyReplace`
supplies `length + 1`, which is always enough since each step consumes at
least one character. -/
def pyReplaceAux (pat rep : List Char) : Nat → List Char → List Char
  | 0, cs => cs
  | _ + 1, [] => []
  | n + 1, c :: cs =>
    if pat ≠ [] ∧ pat.isPrefixOf (c :: cs) then
      rep ++ pyReplaceAux pat rep n (List.drop (pat.length - 1) cs)
    else
      c :: pyReplaceAux pat rep n cs

/-- Python `s.replace(pat, rep)` for a non-empty `pat` (all uses in the
source have non-empty patterns; empty `pat` leaves `s` unchanged here). -/
def pyReplace (s pat rep : String) : String :=
  String.mk (pyReplaceAux pat.data rep.data (s.data.length + 1) s.data)

/-- Split a character list on runs of whitespace, dropping empty pieces:
Python `str.split()` with no argument.  First argument accumulates the
current word (reversed). -/
def splitWsAux : List Char → List Char → List (List Char)
  | cur, [] => if cur.isEmpty then [] else [cur.reverse]
  | cur, c :: cs =>
    if c.isWhitespace then
      if cur.isEmpty then splitWsAux [] cs
      else cur.reverse :: splitWsAux [] cs
    else splitWsAux (c :: cur) cs

/-- Python `' '.join(s.split())`: collapse whitespace runs to single
spaces and trim. -/
def collapseWs (s : String) : String :=
  String.intercalate " " ((splitWsAux [] s.data).map String.mk)

/-! ### Text Normalizer: `clean_html` (src/main.py lines 92-104) -/

/-- Modelled subset of the Python stdlib `html.unescape` covering the
five predefined XML entities (the source delegates entity decoding to the
stdlib; only these entities are exercised by the spec).  `&amp;` is
decoded last so that e.g. `&amp;lt;` decodes to `&lt;`, matching the
stdlib's single left-to-right pass. -/
def htmlUnescape (s : String) : String :=
  pyReplace (pyReplace (pyReplace (pyReplace (pyReplace s
    "&lt;" "<") "&gt;" ">") "&quot;" "\"") "&#39;" "\x27") "&amp;" "&"

/-- Advance past the first `>` in the list: returns the characters
before it and the characters after it, or `none` when there is no `>`. -/
def splitAtGt : List Char → Option (List Char × List Char)
  | [] => none
  | c :: cs =>
    if c = '>' then some ([], cs)
    else (splitAtGt cs).map (fun p => (c :: p.1, p.2))

/-- Fuel-measured core of `re.sub(r'<[^>]+>', '', text)`: a `<` followed
by at least one non-`>` character and a `>` is removed together with the
enclosed characters; a `<` with no such match is kept. -/
def removeTagsAux : Nat → List Char → List Char
  | 0, cs => cs
  | _ + 1, [] => []
  | n + 1, c :: cs =>
    if c = '<' then
      match splitAtGt cs with
      | some (before, after) =>
        if before.isEmpty then c :: removeTagsAux n cs
        else removeTagsAux n after
      | none => c :: removeTagsAux n cs
    else c :: removeTagsAux n cs

/-- `re.sub(r'<[^>]+>', '', text)` from `clean_html`. -/
def removeTags (s : String) : String :=
  String.mk (removeTagsAux (s.data.length + 1) s.data)

/-- `clean_html` (src/main.py lines 92-104).  The Python parameter is
dynamically typed; `none` models passing `None` (falsy, like `""`). -/
def clean_html (text : Option String) : String :=
  match text with
  | none => ""
  | some t =>
    if t = "" then ""
    else
      let t := htmlUnescape t
      let t := removeTags t
      let t := collapseWs t
      (pyReplace (pyReplace t "<![CDATA[" "") "]]>" "")

/-! ### Date Normalizer: `parse_rss_date` (src/main.py lines 106-159)

`datetime` instants are modelled as integers.  `datetime.strptime` is an
external stdlib collaborator (locale- and format-table-driven); it is
modelled as a parameter `strp : String → String → Option ℤ` taking the
format and the (pre-cleaned) string, `none` modelling `ValueError`.  The
regex pre-cleaning of GMT offsets / zone abbreviations feeds only into
`strp` and is absorbed into that parameter.  `IST.localize` and
`astimezone` do not change the instant and are identities here. -/

/-- The eleven format strings tried in order by `parse_rss_date`. -/
def dateFormats : List String :=
  ["%a, %d %b %Y %H:%M:%S %z", "%a, %d %b %Y %H:%M:%S %Z",
   "%a, %d %b %Y %H:%M:%S", "%Y-%m-%dT%H:%M:%S%z", "%Y-%m-%dT%H:%M:%S",
   "%Y-%m-%d %H:%M:%S", "%d %b %Y %H:%M:%S", "%d/%m/%Y %H:%M:%S",
   "%m/%d/%Y %H:%M:%S", "%b %d, %Y %H:%M:%S", "%a %b %d %Y %H:%M:%S"]

/-- First `some` in a list of options (the first format that parses). -/
def firstSome : List (Option ℤ) → Option ℤ
  | [] => none
  | some x :: _ => some x
  | none :: rest => firstSome rest

/-- Does the character list start with `\d{4}-\d{2}-\d{2}`? -/
def ymdAt (cs : List Char) : Bool :=
  match cs with
  | a :: b :: c :: d :: '-' :: e :: f :: '-' :: g :: h :: _ =>
    a.isDigit && b.isDigit && c.isDigit && d.isDigit &&
      e.isDigit && f.isDigit && g.isDigit && h.isDigit
  | _ => false

/-- `re.search(r'(\d{4}-\d{2}-\d{2})', s)`: the first ten-character
substring of shape `YYYY-MM-DD`, scanning left to right. -/
def findYMD : List Char → Option String
  | [] => none
  | c :: cs =>
    if ymdAt (c :: cs) then some (String.mk ((c :: cs).take 10))
    else findYMD cs

/-- `parse_rss_date` (src/main.py lines 106-159).  Empty input is falsy
and returns `None`; otherwise each format is tried through `strp`; on
total failure a bare `YYYY-MM-DD` substring is recovered and re-parsed
with `strp` (the `try` around it falls through to the final fallback on
failure); the last resort is `datetime.now(IST)`, the parameter `now`. -/
def parse_rss_date (strp : String → String → Option ℤ) (now : ℤ)
    (date_str : String) : Option ℤ :=
  if date_str = "" then none
  else
    let s := pyStrip date_str
    match firstSome (dateFormats.map (fun fmt => strp fmt s)) with
    | some dt => some dt
    | none =>
      match findYMD s.data with
      | some dateOnly =>
        match strp "%Y-%m-%d" dateOnly with
        | some dt => some dt
        | none => some now
      | none => some now

/-! ### Dedup Ledger: `load_posted_links` (src/main.py lines 406-433)

The file is modelled as its list of lines; `today_str` (the ISO date of
`datetime.now(IST)`) is a parameter. -/

/-- Python `line.split('|', 1)`: split at the first `|`, or `none` when
there is no `|` (in which case the two-name unpacking raises
`ValueError` and the line is skipped). -/
def splitPipe : List Char → Option (List Char × List Char)
  | [] => none
  | c :: cs =>
    if c = '|' then some ([], cs)
    else (splitPipe cs).map (fun p => (c :: p.1, p.2))

/-- `load_posted_links` (src/main.py lines 406-433): strip each line,
skip blank lines, split on the first `|`, skip lines with no `|`, and
collect the link when the date part equals today's ISO date.  The Python
`set` is modelled as a duplicate-free list built with `List.insert`. -/
def load_posted_links (lines : List String) (today_str : String) :
    List String :=
  lines.foldl
    (fun posted line =>
      let l := pyStrip line
      if l = "" then posted
      else
        match splitPipe l.data with
        | none => posted
        | some (d, lk) =>
          if String.mk d = today_str then posted.insert (String.mk lk)
          else posted)
    []

/-! ### Post Composer: `generate_tweet` (src/main.py lines 476-519)

The Gemini collaborator is modelled by two parameters: `modelAvailable`
(whether `model` is non-`None`) and `ai` (the `response.text` of a
successful `generate_content` call, or `none` when the call raises). -/

/-- The deterministic fallback text of `generate_tweet`:
`f"{title[:200]}... #{category.capitalize()} #News"` truncated to 280. -/
def fallbackTweet (title category : String) : String :=
  pyTake 280 (pyTake 200 title ++ "... " ++ ("#" ++ pyCapitalize category)
    ++ " #News")

/-- `generate_tweet` (src/main.py lines 476-519). -/
def generate_tweet (modelAvailable : Bool) (ai : Option String)
    (title _summary category : String) : String :=
  if !modelAvailable then fallbackTweet title category
  else
    match ai with
    | none => fallbackTweet title category
    | some response =>
      let t := pyStrip response
      let t := pyReplace (pyReplace t "**" "") "*" ""
      if 280 < t.data.length then pyTake 277 t ++ "..." else t

/-- The fallback text exactly as claim C6 words it:
`firstN(title,200) + "... #" + category + " #News"`, truncated to 280
(no capitalization of the category). -/
def claimedFallbackTweet (title category : String) : String :=
  pyTake 280 (pyTake 200 title ++ "... #" ++ category ++ " #News")

/-! ### Ranking Engine: `fetch_and_rank_news` (src/main.py lines 522-633)

Calendar dates are day ordinals `ℤ`; `today` is a parameter.  A feed
entry carries the fields built by `fetch_rss_feed`; `pub_date_dt` is
`Option ℤ` (`None` for a falsy date).  The feed fetch itself is network
I/O; the gathered entries, tagged with their feed's category, are a
parameter (the nested feed/entry loops thread one accumulator linearly,
so they are one fold over the tagged concatenation).  The per-article
`random.uniform(0, 0.5)` draw is `jitter k` where `k` counts previously
accepted articles. -/

/-- The configuration fields used by the Ranking Engine.  Category
weights are a JSON object: an association list with first-match lookup;
integer weights are embedded into `ℚ`. -/
structure Config where
  priority_keywords : List String
  category_weights : List (String × ℚ)
  max_news_age_days : ℤ
deriving DecidableEq

/-- A feed entry as produced by `fetch_rss_feed`. -/
structure Entry where
  title : String
  link : String
  summary : String
  pub_date_dt : Option ℤ
deriving DecidableEq

/-- An element of the `all_news` / `ranked_news` lists. -/
structure NewsItem where
  title : String
  summary : String
  link : String
  category : String
  pub_date : ℤ
  score : ℚ
deriving DecidableEq

/-- The loop state of `fetch_and_rank_news`: `seen_links` and
`all_news`. -/
structure RankState where
  seen_links : List String
  all_news : List NewsItem
deriving DecidableEq

/-- `summary.replace('\n', ' ').replace('\r', '')` followed by
`' '.join(summary.split())[:500]`, applied to the stripped summary. -/
def cleanSummary (summary : String) : String :=
  pyTake 500 (collapseWs (pyReplace (pyReplace (pyStrip summary)
    "\n" " ") "\r" ""))

/-- `keyword_score`: the number of configured priority keywords (the
list lowercased) occurring as substrings of
`(title + ' ' + summary).lower()`. -/
def keyword_score (cfg : Config) (title summary : String) : ℕ :=
  (cfg.priority_keywords.map pyLower).countP
    (fun kw => containsSub kw.data (pyLower (title ++ " " ++ summary)).data)

/-- `category_score`: `category_weights.get(category, 1)`. -/
def category_score (cfg : Config) (category : String) : ℚ :=
  ((cfg.category_weights.lookup category).getD 1)

/-- The `NewsItem` appended for a surviving entry with parsed date `d`
and jitter draw `j`. -/
def mkNewsItem (cfg : Config) (today : ℤ) (category : String) (e : Entry)
    (d : ℤ) (j : ℚ) : NewsItem :=
  let title := pyStrip e.title
  let summary := cleanSummary e.summary
  { title := title, summary := summary, link := e.link,
    category := category, pub_date := d,
    score := (keyword_score cfg title summary : ℚ) * 2
      + category_score cfg category
      + (if d = today then 1 else 0) + j }

/-- The body of the entry loop of `fetch_and_rank_news` (src/main.py
lines 553-614): filter, score, append. -/
def processEntry (cfg : Config) (posted_links : List String) (today : ℤ)
    (jitter : ℕ → ℚ) (st : RankState) (tagged : String × Entry) :
    RankState :=
  match tagged.2.pub_date_dt with
  | none => st
  | some d =>
    if d < today - (cfg.max_news_age_days - 1) then st
    else if tagged.2.link = "" ∨ tagged.2.link ∈ st.seen_links
        ∨ tagged.2.link ∈ posted_links then st
    else if pyStrip tagged.2.title = "" then st
    else
      { seen_links := tagged.2.link :: st.seen_links,
        all_news := st.all_news
          ++ [mkNewsItem cfg today tagged.1 tagged.2 d
                (jitter st.all_news.length)] }

/-- The full gathering fold of `fetch_and_rank_news` over the tagged
entries of every feed, in feed order. -/
def gatherNews (cfg : Config) (posted_links : List String) (today : ℤ)
    (jitter : ℕ → ℚ) (entries : List (String × Entry)) : RankState :=
  entries.foldl (processEntry cfg posted_links today jitter)
    { seen_links := [], all_news := [] }

/-- The sort key relation of
`sorted(all_news, key=lambda x: x['score'], reverse=True)`: descending
score.  Python's `sorted` is stable; `List.insertionSort` with this
relation is the stable descending sort. -/
def byScoreDesc (a b : NewsItem) : Prop := b.score ≤ a.score

instance : DecidableRel byScoreDesc := fun a b =>
  inferInstanceAs (Decidable (b.score ≤ a.score))

instance : IsTotal NewsItem byScoreDesc := ⟨fun a b => le_total b.score a.score⟩

instance : IsTrans NewsItem byScoreDesc :=
  ⟨fun _ _ _ h1 h2 => le_trans h2 h1⟩

/-- `fetch_and_rank_news` (src/main.py lines 522-633): gather, then sort
descending by score (stable). -/
def fetch_and_rank_news (cfg : Config) (posted_links : List String)
    (today : ℤ) (jitter : ℕ → ℚ) (entries : List (String × Entry)) :
    List NewsItem :=
  List.insertionSort byScoreDesc
    (gatherNews cfg posted_links today jitter entries).all_news

/-! ### Publisher: `post_tweet` / `post_tweet_selenium`
(src/twitter_bot.py lines 214-388)

The Selenium session is modelled by its observable outcomes.  Note the
call `driver, wait = setup_brave_driver()` at line 216 sits BEFORE the
`try:` block, and `setup_brave_driver` raises when Brave is not found
(line 93) or when the WebDriver launch fails (line 138), so
`post_tweet_selenium` can propagate an exception instead of returning;
the functions therefore return `Option Bool`, `none` modelling an
uncaught exception.  The remaining outcomes are: whether anything inside
the main `try` raises (caught by the `except` clause, which returns
`True`), whether a Post button was found, and for each click method
whether it raised, left the composer open, or posted. -/

/-- Outcome of one click method attempt in `post_tweet_selenium`. -/
inductive ClickOutcome where
  | raises            -- the click call raised: `except: continue`
  | composerStillOpen -- tweet box still present: `continue`
  | posted            -- tweet box gone: `return True`
deriving DecidableEq

/-- The observable outcomes of one Selenium session. -/
structure SeleniumRun where
  setupRaises : Bool           -- setup_brave_driver() raised (line 216,
                               -- before the try: uncaught, propagates)
  bodyRaises : Bool            -- any exception inside the main `try`
  postButtonFound : Bool       -- some selector yielded a displayed button
  clicks : List ClickOutcome   -- outcomes of the four click methods
deriving DecidableEq

/-- The click-method loop (src/twitter_bot.py lines 345-368): a posted
outcome returns `True`; raising or a still-open composer tries the next
method; exhausting all methods falls through to `return True`. -/
def tryClicks : List ClickOutcome → Bool
  | [] => true
  | ClickOutcome.raises :: rest => tryClicks rest
  | ClickOutcome.composerStillOpen :: rest => tryClicks rest
  | ClickOutcome.posted :: _ => true

/-- `post_tweet_selenium` (src/twitter_bot.py lines 214-379): a raising
`setup_brave_driver()` (line 216, outside the `try`) propagates
(`none`); the `except` handler returns `True`; a missing Post button
returns `True`; otherwise the click loop decides. -/
def post_tweet_selenium (run : SeleniumRun) : Option Bool :=
  if run.setupRaises then none
  else if run.bodyRaises then some true
  else if !run.postButtonFound then some true
  else some (tryClicks run.clicks)

/-- `post_tweet` (src/twitter_bot.py lines 382-388): dispatch on the
configured method; unimplemented methods print a warning and return
`True`; a raising `post_tweet_selenium` propagates. -/
def post_tweet (run : SeleniumRun) (method : String) : Option Bool :=
  if method = "selenium" then post_tweet_selenium run
  else some true

/-- The links the orchestrator loop of `main` (src/main.py lines
666-723) appends to the Dedup Ledger: `save_posted_link(news['link'])`
is called exactly when `post_tweet` returned a truthy success for that
article; when `post_tweet` raises, the per-article `except`
(src/main.py line 714) logs a failure and does not record the link
(each article gets its own Selenium session). -/
def recordedLinks (method : String) :
    List (NewsItem × SeleniumRun) → List String
  | [] => []
  | (news, run) :: rest =>
    match post_tweet run method with
    | none => recordedLinks method rest
    | some true => news.link :: recordedLinks method rest
    | some false => recordedLinks method rest

/-! ### Concrete scenario data for the spec's end-to-end ranking test -/

/-- Configuration of the two-feed scenario: keyword "Modi", category
weights india=4 and technology=3, `max_news_age_days` 2. -/
def c9Config : Config :=
  { priority_keywords := ["Modi"],
    category_weights := [("india", 4), ("technology", 3)],
    max_news_age_days := 2 }

/-- Feed A's article: dated today (day 0), "Modi" in the title. -/
def c9EntryA : Entry :=
  { title := "Modi wins", link := "a", summary := "", pub_date_dt := some 0 }

/-- Feed B's article: dated today (day 0), no keywords. -/
def c9EntryB : Entry :=
  { title := "Quiet day", link := "b", summary := "", pub_date_dt := some 0 }

end TwitterBot

namespace TwitterBot

/-- C8: the Text Normalizer maps "<b>A &amp; B</b>  C" to "A & B C",
maps the empty string to the empty string, and maps absent input to the
empty string. -/
theorem c8_clean_html :
    clean_html (some "<b>A &amp; B</b>  C") = "A & B C" ∧
    clean_html (some "") = "" ∧
    clean_html none = "" := by
  refine ⟨?_, rfl, rfl⟩
  decide

lemma tryClicks_eq_true : ∀ outcomes, tryClicks outcomes = true
  | [] => rfl
  | ClickOutcome.raises :: rest => tryClicks_eq_true rest
  | ClickOutcome.composerStillOpen :: rest => tryClicks_eq_true rest
  | ClickOutcome.posted :: _ => rfl

/-- C10 counterexample: `post_tweet` does NOT return `True` on every
path — `setup_brave_driver()` is called before the `try` block
(src/twitter_bot.py line 216) and can raise (Brave not found, driver
launch failure); the exception propagates out of `post_tweet`, and
`main`'s per-article handler (src/main.py line 714) then logs a failure
and does not record the link. -/
theorem c10_counterexample :
    post_tweet
        { setupRaises := true, bodyRaises := false,
          postButtonFound := true, clicks := [] } "selenium"
      ≠ some true ∧
    recordedLinks "selenium"
      [(⟨"t", "s", "L", "c", 0, 0⟩,
        { setupRaises := true, bodyRaises := false,
          postButtonFound := true, clicks := [] })] = [] := by
  exact ⟨fun h => Option.noConfusion h, rfl⟩

/-- C10 (amended): whenever the Selenium session setup does not raise,
`post_tweet` returns `True` on every code path (exception handler inside
the `try`, missing Post button, all click methods failing, and the
unimplemented-method branch), and the orchestrator records the link of
every selected article whose session setup does not raise, regardless of
the actual posting outcome; when setup raises, the exception propagates
out of `post_tweet` and the link is not recorded. -/
theorem c10_post_tweet_success (run : SeleniumRun) (method : String)
    (pairs : List (NewsItem × SeleniumRun)) :
    (run.setupRaises = false → post_tweet run method = some true) ∧
    ((∀ p ∈ pairs, p.2.setupRaises = false) →
      recordedLinks method pairs = pairs.map (fun p => p.1.link)) ∧
    (run.setupRaises = true → method = "selenium" →
      post_tweet run method = none) := by
  have hpost : ∀ r : SeleniumRun, r.setupRaises = false →
      post_tweet r method = some true := by
    intro r hr
    unfold post_tweet post_tweet_selenium
    by_cases hm : method = "selenium"
    · rw [if_pos hm, hr, if_neg Bool.false_ne_true]
      by_cases hb : r.bodyRaises
      · rw [if_pos hb]
      · rw [if_neg hb]
        by_cases hf : !r.postButtonFound
        · rw [if_pos hf]
        · rw [if_neg hf, tryClicks_eq_true r.clicks]
    · rw [if_neg hm]
  refine ⟨hpost run, ?_, ?_⟩
  · induction pairs with
    | nil => intro _; rfl
    | cons p rest ih =>
      intro hall
      obtain ⟨news, r⟩ := p
      have hr : r.setupRaises = false := hall _ (List.mem_cons_self _ _)
      have hrest := ih (fun q hq => hall q (List.mem_cons_of_mem _ hq))
      simp [recordedLinks, hpost r hr, hrest]
  · intro hr hm
    unfold post_tweet post_tweet_selenium
    rw [if_pos hm, hr, if_pos rfl]

/-- C10 witness: a non-raising session yields `some true`, its link is
recorded, and a raising setup propagates (`none`). -/
theorem c10_witness :
    post_tweet
        { setupRaises := false, bodyRaises := false,
          postButtonFound := false, clicks := [] } "selenium"
      = some true ∧
    recordedLinks "selenium"
      [(⟨"t", "s", "L", "c", 0, 0⟩,
        { setupRaises := false, bodyRaises := false,
          postButtonFound := false, clicks := [] })] = ["L"] ∧
    post_tweet
        { setupRaises := true, bodyRaises := false,
          postButtonFound := true, clicks := [] } "selenium"
      = none := by
  refine ⟨(c10_post_tweet_success _ "selenium" []).1 rfl, ?_, ?_⟩
  · have h := (c10_post_tweet_success
      { setupRaises := false, bodyRaises := false,
        postButtonFound := false, clicks := [] } "selenium"
      [(⟨"t", "s", "L", "c", 0, 0⟩,
        { setupRaises := false, bodyRaises := false,
          postButtonFound := false, clicks := [] })]).2.1
    exact h (by
      intro p hp
      rw [List.mem_singleton] at hp
      subst hp
      rfl)
  · exact (c10_post_tweet_success
      { setupRaises := true, bodyRaises := false,
        postButtonFound := true, clicks := [] } "selenium" []).2.2 rfl rfl

lemma firstSome_eq_none {l : List (Option ℤ)} (h : ∀ x ∈ l, x = none) :
    firstSome l = none := by
  induction l with
  | nil => rfl
  | cons x rest ih =>
    have hx := h x (List.mem_cons_self x rest)
    subst hx
    exact ih (fun y hy => h y (List.mem_cons_of_mem _ hy))

/-- C5 counterexample: the claim quantifies over every input string, but
`parse_rss_date` returns `None` for the empty string (`if not date_str:
return None`, src/main.py line 108). -/
theorem c5_counterexample :
    parse_rss_date (fun _ _ => none) 0 "" = none := rfl

/-- C5 (amended): for every NON-EMPTY input string the Date Normalizer
returns a non-null timestamp, and whenever no format matches (and hence
also no recovered `YYYY-MM-DD` substring parses) the result is exactly
the current time in the reference zone, so it is never older than "now"
at call time. -/
theorem c5_nonempty_never_none (strp : String → String → Option ℤ)
    (now : ℤ) (s : String) (hs : s ≠ "") :
    (parse_rss_date strp now s).isSome = true ∧
    ((∀ fmt d, strp fmt d = none) → parse_rss_date strp now s = some now) := by
  have hbody : parse_rss_date strp now s =
      match firstSome (dateFormats.map (fun fmt => strp fmt (pyStrip s))) with
      | some dt => some dt
      | none =>
        match findYMD (pyStrip s).data with
        | some dateOnly =>
          match strp "%Y-%m-%d" dateOnly with
          | some dt => some dt
          | none => some now
        | none => some now := by
    unfold parse_rss_date
    rw [if_neg hs]
  constructor
  · rw [hbody]
    rcases hfs : firstSome (dateFormats.map (fun fmt => strp fmt (pyStrip s)))
      with _ | dt
    · rcases hy : findYMD (pyStrip s).data with _ | dateOnly
      · simp
      · rcases hp : strp "%Y-%m-%d" dateOnly with _ | dt <;> simp [hp]
    · simp
  · intro hnone
    have hfs : firstSome (dateFormats.map (fun fmt => strp fmt (pyStrip s)))
        = none := by
      apply firstSome_eq_none
      intro x hx
      rcases List.mem_map.mp hx with ⟨fmt, _, hfmt⟩
      rw [← hfmt]; exact hnone fmt (pyStrip s)
    rw [hbody, hfs]
    rcases hy : findYMD (pyStrip s).data with _ | dateOnly
    · rfl
    · simp [hnone]

/-- C5 witness: a concrete unparseable non-empty string under a
`strptime` that always fails yields `some now`, not `none`. -/
theorem c5_witness :
    (parse_rss_date (fun _ _ => none) 5 "garbage").isSome = true ∧
    parse_rss_date (fun _ _ => none) 5 "garbage" = some 5 := by
  have h := c5_nonempty_never_none (fun _ _ => none) 5 "garbage" (by decide)
  exact ⟨h.1, h.2 (fun _ _ => rfl)⟩

/-- C6 counterexample: the claim's fallback text `firstN(title,200) +
"... #" + category + " #News"` uses the category verbatim, but the code
builds the hashtag with `category.capitalize()` (src/main.py lines 480,
517): for category "india" the code yields "#India", not "#india". -/
theorem c6_counterexample :
    generate_tweet false none "T" "" "india"
      ≠ claimedFallbackTweet "T" "india" := by
  decide

/-- C6 (amended): when the generative model is unconfigured or its call
fails, `generate_tweet` returns exactly the deterministic fallback
`firstN(title,200) + "... #" + capitalize(category) + " #News"`
truncated to 280 characters, and on every path the returned post text is
at most 280 characters long. -/
theorem c6_fallback_and_length :
    (∀ ai title summary category,
      generate_tweet false ai title summary category
        = fallbackTweet title category) ∧
    (∀ title summary category,
      generate_tweet true none title summary category
        = fallbackTweet title category) ∧
    (∀ modelAvailable ai title summary category,
      (generate_tweet modelAvailable ai title summary category).data.length
        ≤ 280) := by
  refine ⟨fun ai title summary category => rfl,
    fun title summary category => rfl,
    fun modelAvailable ai title summary category => ?_⟩
  have hfb : ∀ t c : String, (fallbackTweet t c).data.length ≤ 280 := by
    intro t c
    show (List.take 280 _).length ≤ 280
    exact List.length_take_le 280 _
  unfold generate_tweet
  rcases modelAvailable with _ | _
  · simp only [Bool.not_false, if_true]
    exact hfb title category
  · rcases ai with _ | response
    · simpa using hfb title category
    · simp only [Bool.not_true, Bool.false_eq_true, if_false]
      set t := pyReplace (pyReplace (pyStrip response) "**" "") "*" "" with ht
      by_cases hlen : 280 < t.data.length
      · rw [if_pos hlen]
        have h277 : (pyTake 277 t).data.length = 277 := by
          show (t.data.take 277).length = 277
          rw [List.length_take]
          omega
        simp [String.data_append, h277]
      · rw [if_neg hlen]
        omega

lemma mem_load_posted_links (lines : List String) (today l : String) :
    l ∈ load_posted_links lines today ↔
      ∃ line ∈ lines, ∃ d lk, splitPipe (pyStrip line).data = some (d, lk) ∧
        String.mk d = today ∧ String.mk lk = l := by
  have main : ∀ (ls : List String) (acc : List String),
      l ∈ ls.foldl
        (fun posted line =>
          let l' := pyStrip line
          if l' = "" then posted
          else
            match splitPipe l'.data with
            | none => posted
            | some (d, lk) =>
              if String.mk d = today then posted.insert (String.mk lk)
              else posted)
        acc ↔
      l ∈ acc ∨ ∃ line ∈ ls, ∃ d lk,
        splitPipe (pyStrip line).data = some (d, lk) ∧
        String.mk d = today ∧ String.mk lk = l := by
    intro ls
    induction ls with
    | nil => simp
    | cons line rest ih =>
      intro acc
      rw [List.foldl_cons, ih]
      have hstep : ∀ res : Prop,
          ((l ∈ (if pyStrip line = "" then acc
            else
              match splitPipe (pyStrip line).data with
              | none => acc
              | some (d, lk) =>
                if String.mk d = today then acc.insert (String.mk lk)
                else acc) ∨ res) ↔
          ((l ∈ acc ∨ (∃ d lk, splitPipe (pyStrip line).data = some (d, lk) ∧
            String.mk d = today ∧ String.mk lk = l)) ∨ res)) := by
        intro res
        by_cases hb : pyStrip line = ""
        · rw [if_pos hb, hb]
          simp [splitPipe]
        · rw [if_neg hb]
          rcases hsp : splitPipe (pyStrip line).data with _ | ⟨d, lk⟩
          · simp
          · by_cases hd : String.mk d = today
            · simp only [List.mem_insert_iff, if_pos hd]
              simp [hd, and_assoc, eq_comm]
              tauto
            · simp only [if_neg hd]
              simp [hd, and_assoc]
      rw [hstep]
      simp only [List.mem_cons]
      constructor
      · rintro ((h | h) | h)
        · exact Or.inl h
        · exact Or.inr ⟨line, Or.inl rfl, h⟩
        · rcases h with ⟨ln, hln, hrest⟩
          exact Or.inr ⟨ln, Or.inr hln, hrest⟩
      · rintro (h | ⟨ln, hln | hln, hrest⟩)
        · exact Or.inl (Or.inl h)
        · exact Or.inl (Or.inr (hln ▸ hrest))
        · exact Or.inr ⟨ln, hln, hrest⟩
  have := main lines []
  simp only [List.not_mem_nil, false_or] at this
  exact (by rw [load_posted_links]; exact this)

/-- C7: `load_posted_links` returns exactly the links of well-formed
`date|link` lines (after stripping; malformed lines skipped) whose date
equals today's date string; consequently a link recorded today is
excluded from the same day's ranked output, while a link recorded
yesterday is not excluded. -/
theorem c7_load_posted_links :
    (∀ lines today l, l ∈ load_posted_links lines today ↔
      ∃ line ∈ lines, ∃ d lk, splitPipe (pyStrip line).data = some (d, lk) ∧
        String.mk d = today ∧ String.mk lk = l) ∧
    fetch_and_rank_news ⟨[], [("c", 2)], 2⟩
      (load_posted_links ["2024-01-01|L"] "2024-01-01") 0 (fun _ => 0)
      [("c", ⟨"T", "L", "", some 0⟩)] = [] ∧
    fetch_and_rank_news ⟨[], [("c", 2)], 2⟩
      (load_posted_links ["2024-01-01|L"] "2024-01-02") 0 (fun _ => 0)
      [("c", ⟨"T", "L", "", some 0⟩)] =
      [mkNewsItem ⟨[], [("c", 2)], 2⟩ 0 "c" ⟨"T", "L", "", some 0⟩ 0 0] := by
  exact ⟨mem_load_posted_links, rfl, rfl⟩

lemma processEntry_cases (cfg : Config) (posted : List String) (today : ℤ)
    (jitter : ℕ → ℚ) (st : RankState) (t : String × Entry) :
    processEntry cfg posted today jitter st t = st ∨
    ∃ d, t.2.pub_date_dt = some d ∧
      ¬ d < today - (cfg.max_news_age_days - 1) ∧
      t.2.link ≠ "" ∧ t.2.link ∉ st.seen_links ∧ t.2.link ∉ posted ∧
      pyStrip t.2.title ≠ "" ∧
      processEntry cfg posted today jitter st t =
        { seen_links := t.2.link :: st.seen_links,
          all_news := st.all_news
            ++ [mkNewsItem cfg today t.1 t.2 d
                  (jitter st.all_news.length)] } := by
  rcases hde : t.2.pub_date_dt with _ | d
  · exact Or.inl (by unfold processEntry; rw [hde])
  · have hsome : processEntry cfg posted today jitter st t =
        (if d < today - (cfg.max_news_age_days - 1) then st
        else if t.2.link = "" ∨ t.2.link ∈ st.seen_links
            ∨ t.2.link ∈ posted then st
        else if pyStrip t.2.title = "" then st
        else
          { seen_links := t.2.link :: st.seen_links,
            all_news := st.all_news
              ++ [mkNewsItem cfg today t.1 t.2 d
                    (jitter st.all_news.length)] }) := by
      unfold processEntry; rw [hde]
    rw [hsome]
    by_cases h1 : d < today - (cfg.max_news_age_days - 1)
    · rw [if_pos h1]; exact Or.inl rfl
    · rw [if_neg h1]
      by_cases h2 : t.2.link = "" ∨ t.2.link ∈ st.seen_links
          ∨ t.2.link ∈ posted
      · rw [if_pos h2]; exact Or.inl rfl
      · rw [if_neg h2]
        push_neg at h2
        by_cases h3 : pyStrip t.2.title = ""
        · rw [if_pos h3]; exact Or.inl rfl
        · rw [if_neg h3]
          exact Or.inr ⟨d, hde ▸ rfl, h1, h2.1, h2.2.1, h2.2.2, h3, rfl⟩

lemma mem_gather_fold (cfg : Config) (posted : List String) (today : ℤ)
    (jitter : ℕ → ℚ) :
    ∀ (l : List (String × Entry)) (st : RankState) (a : NewsItem),
      a ∈ (l.foldl (processEntry cfg posted today jitter) st).all_news →
      a ∈ st.all_news ∨ ∃ cat e d k, e.pub_date_dt = some d ∧
        ¬ d < today - (cfg.max_news_age_days - 1) ∧
        e.link ≠ "" ∧ e.link ∉ posted ∧ pyStrip e.title ≠ "" ∧
        a = mkNewsItem cfg today cat e d (jitter k) := by
  intro l
  induction l with
  | nil => intro st a h; exact Or.inl h
  | cons hd tl ih =>
    intro st a h
    rw [List.foldl_cons] at h
    rcases ih _ a h with hmem | hex
    · rcases processEntry_cases cfg posted today jitter st hd with
        heq | ⟨d, hde, h1, h2, _, h4, h5, heq⟩
      · rw [heq] at hmem; exact Or.inl hmem
      · rw [heq] at hmem
        simp only [List.mem_append, List.mem_singleton] at hmem
        rcases hmem with hmem | hmem
        · exact Or.inl hmem
        · exact Or.inr ⟨hd.1, hd.2, d, st.all_news.length,
            hde, h1, h2, h4, h5, hmem⟩
    · exact Or.inr hex

lemma mem_gatherNews {cfg : Config} {posted : List String} {today : ℤ}
    {jitter : ℕ → ℚ} {entries : List (String × Entry)} {a : NewsItem}
    (h : a ∈ (gatherNews cfg posted today jitter entries).all_news) :
    ∃ cat e d k, e.pub_date_dt = some d ∧
      ¬ d < today - (cfg.max_news_age_days - 1) ∧
      e.link ≠ "" ∧ e.link ∉ posted ∧ pyStrip e.title ≠ "" ∧
      a = mkNewsItem cfg today cat e d (jitter k) := by
  rcases mem_gather_fold cfg posted today jitter entries _ a h with h0 | hex
  · exact absurd h0 (List.not_mem_nil a)
  · exact hex

lemma mem_ranked_iff_gathered (cfg : Config) (posted : List String)
    (today : ℤ) (jitter : ℕ → ℚ) (entries : List (String × Entry))
    (a : NewsItem) :
    a ∈ fetch_and_rank_news cfg posted today jitter entries ↔
      a ∈ (gatherNews cfg posted today jitter entries).all_news :=
  (List.perm_insertionSort byScoreDesc _).mem_iff

/-- C1: every ranked article's score is
`keywordScore * 2 + categoryScore + recencyBonus + jitter` computed from
its own stored fields, with the jitter draw in `[0, 0.5)`. -/
theorem c1_score_formula (cfg : Config) (posted : List String) (today : ℤ)
    (jitter : ℕ → ℚ) (entries : List (String × Entry))
    (hj : ∀ k, 0 ≤ jitter k ∧ jitter k < 1/2) :
    ∀ a ∈ fetch_and_rank_news cfg posted today jitter entries,
      ∃ j, 0 ≤ j ∧ j < 1/2 ∧
        a.score = (keyword_score cfg a.title a.summary : ℚ) * 2
          + category_score cfg a.category
          + (if a.pub_date = today then 1 else 0) + j := by
  intro a ha
  rcases mem_gatherNews
      ((mem_ranked_iff_gathered cfg posted today jitter entries a).mp ha) with
    ⟨cat, e, d, k, _, _, _, _, _, hmk⟩
  refine ⟨jitter k, (hj k).1, (hj k).2, ?_⟩
  subst hmk
  simp [mkNewsItem]

/-- C1 witness: in a one-article scenario with jitter 1/4, the single
ranked article satisfies the score formula. -/
theorem c1_witness :
    ∃ j, 0 ≤ j ∧ j < 1/2 ∧
      (mkNewsItem c9Config 0 "india" c9EntryA 0 (1/4)).score =
        (keyword_score c9Config
            (mkNewsItem c9Config 0 "india" c9EntryA 0 (1/4)).title
            (mkNewsItem c9Config 0 "india" c9EntryA 0 (1/4)).summary : ℚ) * 2
          + category_score c9Config
              (mkNewsItem c9Config 0 "india" c9EntryA 0 (1/4)).category
          + (if (mkNewsItem c9Config 0 "india" c9EntryA 0 (1/4)).pub_date
                = (0 : ℤ) then 1 else 0)
          + j := by
  have hout : fetch_and_rank_news c9Config [] 0 (fun _ => 1/4)
      [("india", c9EntryA)]
      = [mkNewsItem c9Config 0 "india" c9EntryA 0 (1/4)] := rfl
  exact c1_score_formula c9Config [] 0 (fun _ => 1/4) [("india", c9EntryA)]
    (fun k => ⟨by norm_num, by norm_num⟩) _
    (by rw [hout]; exact List.mem_singleton_self _)

/-- C2: every ranked article has a non-empty link not in the ledger, a
non-empty title, and a publish date no older than
`today - (max_news_age_days - 1)`; an entry with no parseable date is
dropped without scoring; an entry whose link was already seen in this
run is dropped without scoring; and with `max_news_age_days = 2` no
article dated 10 days ago appears. -/
theorem c2_filtering (cfg : Config) (posted : List String) (today : ℤ)
    (jitter : ℕ → ℚ) (entries : List (String × Entry)) :
    (∀ a ∈ fetch_and_rank_news cfg posted today jitter entries,
      a.link ≠ "" ∧ a.link ∉ posted ∧ a.title ≠ "" ∧
        today - (cfg.max_news_age_days - 1) ≤ a.pub_date) ∧
    (∀ st t, t.2.pub_date_dt = none →
      processEntry cfg posted today jitter st t = st) ∧
    (∀ st t, t.2.link ∈ st.seen_links →
      processEntry cfg posted today jitter st t = st) ∧
    (cfg.max_news_age_days = 2 →
      ∀ a ∈ fetch_and_rank_news cfg posted today jitter entries,
        a.pub_date ≠ today - 10) := by
  have hmain : ∀ a ∈ fetch_and_rank_news cfg posted today jitter entries,
      a.link ≠ "" ∧ a.link ∉ posted ∧ a.title ≠ "" ∧
        today - (cfg.max_news_age_days - 1) ≤ a.pub_date := by
    intro a ha
    rcases mem_gatherNews
        ((mem_ranked_iff_gathered cfg posted today jitter entries a).mp ha)
      with ⟨cat, e, d, k, _, h1, h2, h4, h5, hmk⟩
    subst hmk
    refine ⟨?_, ?_, ?_, ?_⟩
    · simpa [mkNewsItem] using h2
    · simpa [mkNewsItem] using h4
    · simpa [mkNewsItem] using h5
    · simpa [mkNewsItem] using not_lt.mp h1
  refine ⟨hmain, ?_, ?_, ?_⟩
  · intro st t ht
    rcases processEntry_cases cfg posted today jitter st t with
      heq | ⟨d, hde, _⟩
    · exact heq
    · rw [ht] at hde; exact Option.noConfusion hde
  · intro st t hseen
    rcases processEntry_cases cfg posted today jitter st t with
      heq | ⟨d, _, _, _, hnot, _, _, _⟩
    · exact heq
    · exact absurd hseen hnot
  · intro hage a ha
    have := (hmain a ha).2.2.2
    rw [hage] at this
    omega

/-- C2 witness: concrete instances of the four filtering facts. -/
theorem c2_witness :
    ((mkNewsItem c9Config 0 "india" c9EntryA 0 (1/4)).link ≠ "" ∧
     (mkNewsItem c9Config 0 "india" c9EntryA 0 (1/4)).link
        ∉ ([] : List String) ∧
     (mkNewsItem c9Config 0 "india" c9EntryA 0 (1/4)).title ≠ "" ∧
     (0 : ℤ) - (c9Config.max_news_age_days - 1)
        ≤ (mkNewsItem c9Config 0 "india" c9EntryA 0 (1/4)).pub_date) ∧
    processEntry c9Config [] 0 (fun _ => 1/4) ⟨[], []⟩
      ("x", ⟨"T", "L", "", none⟩) = ⟨[], []⟩ ∧
    processEntry c9Config [] 0 (fun _ => 1/4) ⟨["M"], []⟩
      ("x", ⟨"T", "M", "", some 0⟩) = ⟨["M"], []⟩ ∧
    (mkNewsItem c9Config 0 "india" c9EntryA 0 (1/4)).pub_date ≠ 0 - 10 := by
  have h := c2_filtering c9Config [] 0 (fun _ => 1/4) [("india", c9EntryA)]
  have hout : fetch_and_rank_news c9Config [] 0 (fun _ => 1/4)
      [("india", c9EntryA)]
      = [mkNewsItem c9Config 0 "india" c9EntryA 0 (1/4)] := rfl
  have hmem : mkNewsItem c9Config 0 "india" c9EntryA 0 (1/4)
      ∈ fetch_and_rank_news c9Config [] 0 (fun _ => 1/4)
        [("india", c9EntryA)] := by
    rw [hout]; exact List.mem_singleton_self _
  exact ⟨h.1 _ hmem, h.2.1 _ _ rfl,
    h.2.2.1 ⟨["M"], []⟩ ("x", ⟨"T", "M", "", some 0⟩)
      (List.mem_singleton_self _),
    h.2.2.2 rfl _ hmem⟩

lemma gather_links_invariant (cfg : Config) (posted : List String)
    (today : ℤ) (jitter : ℕ → ℚ) :
    ∀ (l : List (String × Entry)) (st : RankState),
      st.all_news.map NewsItem.link = st.seen_links.reverse →
      st.seen_links.Nodup →
      (l.foldl (processEntry cfg posted today jitter) st).all_news.map
          NewsItem.link
        = (l.foldl (processEntry cfg posted today jitter)
            st).seen_links.reverse ∧
      (l.foldl (processEntry cfg posted today jitter) st).seen_links.Nodup := by
  intro l
  induction l with
  | nil => intro st h1 h2; exact ⟨h1, h2⟩
  | cons hd tl ih =>
    intro st h1 h2
    rw [List.foldl_cons]
    rcases processEntry_cases cfg posted today jitter st hd with
      heq | ⟨d, _, _, _, hseen, _, _, heq⟩
    · rw [heq]; exact ih st h1 h2
    · rw [heq]
      apply ih
      · simp [mkNewsItem, h1]
      · exact List.nodup_cons.mpr ⟨hseen, h2⟩

/-- C3: the ranked list never contains two entries with the same link
(the links are pairwise distinct), and an entry whose link was already
seen in this run leaves the state unchanged (only the first-seen article
with a link is kept). -/
theorem c3_no_duplicate_links (cfg : Config) (posted : List String)
    (today : ℤ) (jitter : ℕ → ℚ) (entries : List (String × Entry)) :
    ((fetch_and_rank_news cfg posted today jitter entries).map
      NewsItem.link).Nodup ∧
    (∀ st t, t.2.link ∈ st.seen_links →
      processEntry cfg posted today jitter st t = st) := by
  constructor
  · obtain ⟨hmap, hnodup⟩ := gather_links_invariant cfg posted today jitter
      entries { seen_links := [], all_news := [] } (by simp) List.nodup_nil
    have hraw : ((gatherNews cfg posted today jitter entries).all_news.map
        NewsItem.link).Nodup := by
      rw [gatherNews, hmap]
      exact List.nodup_reverse.mpr hnodup
    exact (((List.perm_insertionSort byScoreDesc
      (gatherNews cfg posted today jitter entries).all_news).map
        NewsItem.link).nodup_iff).mpr hraw
  · intro st t hseen
    rcases processEntry_cases cfg posted today jitter st t with
      heq | ⟨d, _, _, _, hnot, _, _, _⟩
    · exact heq
    · exact absurd hseen hnot

/-- C3 witness: concrete instances of both conjuncts. -/
theorem c3_witness :
    ((fetch_and_rank_news c9Config [] 0 (fun _ => 1/4)
      [("india", c9EntryA)]).map NewsItem.link).Nodup ∧
    processEntry c9Config [] 0 (fun _ => 1/4) ⟨["L"], []⟩
      ("x", ⟨"T", "L", "", some 0⟩) = ⟨["L"], []⟩ := by
  have h := c3_no_duplicate_links c9Config [] 0 (fun _ => 1/4)
    [("india", c9EntryA)]
  exact ⟨h.1, h.2 ⟨["L"], []⟩ ("x", ⟨"T", "L", "", some 0⟩)
    (List.mem_singleton_self _)⟩

lemma filter_orderedInsert (q : ℚ) (a : NewsItem) (l : List NewsItem) :
    (List.orderedInsert byScoreDesc a l).filter
        (fun x => decide (x.score = q))
      = (a :: l).filter (fun x => decide (x.score = q)) := by
  induction l with
  | nil => rfl
  | cons b bs ih =>
    by_cases hab : byScoreDesc a b
    · rw [List.orderedInsert, if_pos hab]
    · rw [List.orderedInsert, if_neg hab]
      have hlt : a.score < b.score := lt_of_not_le hab
      by_cases haq : a.score = q
      · have hbq : b.score ≠ q := by
          intro h
          rw [← haq] at h
          exact absurd h (ne_of_gt hlt)
        simp [List.filter_cons, haq, hbq, ih]
      · simp [List.filter_cons, haq, ih]

lemma filter_insertionSort (q : ℚ) (l : List NewsItem) :
    (List.insertionSort byScoreDesc l).filter
        (fun x => decide (x.score = q))
      = l.filter (fun x => decide (x.score = q)) := by
  induction l with
  | nil => rfl
  | cons x xs ih =>
    rw [List.insertionSort, filter_orderedInsert]
    simp [List.filter_cons, ih]

/-- C4: the ranked sequence is sorted descending by score, and it is a
stable sort of the gathered (first-seen order) sequence: for every score
value, the articles having exactly that score appear in the same order
as they were gathered. -/
theorem c4_sorted_descending_stable (cfg : Config) (posted : List String)
    (today : ℤ) (jitter : ℕ → ℚ) (entries : List (String × Entry)) :
    List.Sorted byScoreDesc
      (fetch_and_rank_news cfg posted today jitter entries) ∧
    ∀ q : ℚ,
      (fetch_and_rank_news cfg posted today jitter entries).filter
          (fun a => decide (a.score = q))
        = (gatherNews cfg posted today jitter entries).all_news.filter
            (fun a => decide (a.score = q)) :=
  ⟨List.sorted_insertionSort byScoreDesc _, fun q => filter_insertionSort q _⟩

/-- C9: in the two-feed scenario (one article dated today with "Modi" in
the title in category "india" weight 4, one article dated today with no
keyword in category "technology" weight 3), the india article is ranked
first for every jitter draw in `[0, 0.5)`. -/
theorem c9_two_feed_scenario (j : ℕ → ℚ)
    (hj : ∀ k, 0 ≤ j k ∧ j k < 1/2) :
    (fetch_and_rank_news c9Config [] 0 j
      [("india", c9EntryA), ("technology", c9EntryB)]).map NewsItem.link
      = ["a", "b"] := by
  have hraw : (gatherNews c9Config [] 0 j
      [("india", c9EntryA), ("technology", c9EntryB)]).all_news
      = [mkNewsItem c9Config 0 "india" c9EntryA 0 (j 0),
         mkNewsItem c9Config 0 "technology" c9EntryB 0 (j 1)] := rfl
  have hA : (mkNewsItem c9Config 0 "india" c9EntryA 0 (j 0)).score
      = 7 + j 0 := by
    have hk : keyword_score c9Config (pyStrip c9EntryA.title)
        (cleanSummary c9EntryA.summary) = 1 := by decide
    have hc : category_score c9Config "india" = 4 := by decide
    simp [mkNewsItem, hk, hc]
    ring
  have hB : (mkNewsItem c9Config 0 "technology" c9EntryB 0 (j 1)).score
      = 4 + j 1 := by
    have hk : keyword_score c9Config (pyStrip c9EntryB.title)
        (cleanSummary c9EntryB.summary) = 0 := by decide
    have hc : category_score c9Config "technology" = 3 := by decide
    simp [mkNewsItem, hk, hc]
    ring
  have hAB : byScoreDesc (mkNewsItem c9Config 0 "india" c9EntryA 0 (j 0))
      (mkNewsItem c9Config 0 "technology" c9EntryB 0 (j 1)) := by
    show (mkNewsItem c9Config 0 "technology" c9EntryB 0 (j 1)).score
      ≤ (mkNewsItem c9Config 0 "india" c9EntryA 0 (j 0)).score
    rw [hA, hB]
    have h0 := (hj 0).1
    have h1 := (hj 1).2
    linarith
  have hsort : fetch_and_rank_news c9Config [] 0 j
      [("india", c9EntryA), ("technology", c9EntryB)]
      = [mkNewsItem c9Config 0 "india" c9EntryA 0 (j 0),
         mkNewsItem c9Config 0 "technology" c9EntryB 0 (j 1)] := by
    unfold fetch_and_rank_news
    rw [hraw]
    show List.orderedInsert byScoreDesc
        (mkNewsItem c9Config 0 "india" c9EntryA 0 (j 0))
        [mkNewsItem c9Config 0 "technology" c9EntryB 0 (j 1)] = _
    exact List.orderedInsert_of_le byScoreDesc _ hAB
  rw [hsort]
  rfl

/-- C9 witness: the conclusion at the concrete jitter function that
always draws 0. -/
theorem c9_witness :
    (fetch_and_rank_news c9Config [] 0 (fun _ => 0)
      [("india", c9EntryA), ("technology", c9EntryB)]).map NewsItem.link
      = ["a", "b"] :=
  c9_two_feed_scenario (fun _ => 0)
    (fun _ => ⟨le_refl 0, by norm_num⟩)

end TwitterBot
